import Mathlib

/-!
# Verification of the particle-life simulation core

A shallow embedding, in Lean 4, of the simulation core of the
`particle-life` repository: the force kernel, the Barnes-Hut force
aggregator, the integrator with wall reflection (`src/src/mq/sim.rs` and
`src/src/sim.rs`), the wasm Barnes-Hut quadtree query
(`src/wasm/src/qt.rs`), the GPU grid parameters (`src/wgpu/src/app.rs`)
and the dense GPU force dispatcher (`src/src/gpu.rs`).

Conventions of the embedding:

* `f32`/`f64` scalars are embedded as exact rationals (`ℚ`); float
  rounding is out of scope.
* `glam::Vec2::normalize` (resp. `nalgebra` normalization) is an external
  library primitive; the simulation definitions take it as an explicit
  function parameter `dir : Vec → Vec`.  Theorems either hold for every
  `dir`, or instantiate it at sample points whose Euclidean norm is
  rational, where `dirExact` below agrees with the mathematical
  normalization.
* Comparisons of Euclidean distances against a nonnegative radius are
  embedded in their squared form (`dist2 a b ≤ r * r` for `dist a b ≤ r`),
  which is equivalent for nonnegative radii.
* The external `quadtree` crate's `BHQuadtree` stores the weighted points
  handed to `build`; its `accumulate` is taken as a function parameter
  `acc`.  Where a concrete accumulator is needed, `naiveAcc` (exact
  summation, the spec's `θ = 0` semantics) is used on worlds with one
  point per culture, where the Barnes-Hut query and exact summation
  coincide.
-/

namespace ParticleLife

/-- A 2D vector (`glam::Vec2` / `nalgebra` 2-vectors), embedded as a pair
of exact rationals. -/
abbrev Vec : Type := ℚ × ℚ

/-- Squared Euclidean distance, `Vec2::distance_squared(a, b)`. -/
def dist2 (a b : Vec) : ℚ :=
  (a.1 - b.1) ^ 2 + (a.2 - b.2) ^ 2

/-- Componentwise scaling `v * s` of a `Vec2` by a scalar. -/
def scale (s : ℚ) (v : Vec) : Vec :=
  (v.1 * s, v.2 * s)

/-- Exact rational square root: returns the nonnegative rational square
root when one exists (numerator and denominator perfect squares), and `0`
otherwise.  Used only to instantiate the normalization primitive at
sample points whose norm is rational. -/
def ratSqrt (x : ℚ) : ℚ :=
  (Nat.sqrt x.num.toNat : ℚ) / (Nat.sqrt x.den : ℚ)

/-- A concrete instantiation of the external normalization primitive
(`Vec2::normalize`): exact at vectors of rational Euclidean norm. -/
def dirExact (v : Vec) : Vec :=
  let n : ℚ := ratSqrt (v.1 * v.1 + v.2 * v.2)
  (v.1 / n, v.2 / n)

/-- A particle (`Particle` in `src/src/mq/sim.rs` and `src/src/sim.rs`):
position and velocity. -/
structure Particle : Type where
  pos : Vec
  vel : Vec
  deriving DecidableEq, Repr

/-- A weighted point handed out by the spatial index
(`quadtree::WeightedPoint`): position and (float) mass. -/
structure WPoint : Type where
  pos : Vec
  mass : ℚ
  deriving DecidableEq, Repr

/-- `Particle::force` from `src/src/mq/sim.rs` lines 94-102 (identical in
`src/src/sim.rs` lines 95-103): the force a weighted approximated point
exerts on this particle given the coefficient `g` and the squared AoE
radius `aoe2`.  `dir` stands for `glam`'s `Vec2::normalize`. -/
def Particle.force (dir : Vec → Vec) (p : Particle) (point : WPoint)
    (g aoe2 : ℚ) : Vec :=
  let d2 := dist2 p.pos point.pos
  if 0 < d2 ∧ d2 ≤ aoe2 then
    scale point.mass (scale g (dir (point.pos - p.pos)))
  else
    0

/-- The force kernel as the specification words it (spec §4.3): return
`0` when `d² = 0` or `d² > r²`, and `normalize(s - p) · g · m`
otherwise. -/
def kernelSpec (dir : Vec → Vec) (p : Particle) (point : WPoint)
    (g aoe2 : ℚ) : Vec :=
  let d2 := dist2 p.pos point.pos
  if d2 = 0 ∨ aoe2 < d2 then 0
  else scale point.mass (scale g (dir (point.pos - p.pos)))

theorem dist2_nonneg (a b : Vec) : 0 ≤ dist2 a b := by
  unfold dist2; positivity

/-- **C2.** The force kernel, given query position `p`, sample point `s`
with mass `m`, coefficient `g` and squared cutoff `r²`, returns the zero
vector whenever the squared distance `|s - p|²` is `0` or exceeds `r²`,
and otherwise returns `normalize(s - p) · g · m`: the code's kernel
(`Particle::force`) agrees with the specification's kernel at every
input, for every normalization primitive. -/
theorem force_eq_kernelSpec (dir : Vec → Vec) (p : Particle)
    (point : WPoint) (g aoe2 : ℚ) :
    Particle.force dir p point g aoe2 = kernelSpec dir p point g aoe2 := by
  unfold Particle.force kernelSpec
  have h0 : 0 ≤ dist2 p.pos point.pos := dist2_nonneg _ _
  rcases lt_or_eq_of_le h0 with hlt | heq
  · rcases le_or_lt (dist2 p.pos point.pos) aoe2 with hle | hgt
    · rw [if_pos ⟨hlt, hle⟩, if_neg]
      push_neg
      exact ⟨ne_of_gt hlt, hle⟩
    · rw [if_neg, if_pos (Or.inr hgt)]
      rintro ⟨-, hle⟩
      exact absurd hgt (not_lt_of_le hle)
  · rw [if_neg, if_pos (Or.inl heq.symm)]
    rintro ⟨hlt, -⟩
    exact absurd heq.symm (ne_of_gt hlt)

/-- Mouse state for one tick (`macroquad::input`): no button, left button
down at a position, or right button down at a position. -/
inductive Mouse : Type
  | noneDown : Mouse
  | leftDown : Vec → Mouse
  | rightDown : Vec → Mouse

/-- `Particle::cursor_force` from `src/src/mq/sim.rs` lines 104-130:
repel with magnitude `cforce` on left click, attract on right click,
within the squared cursor radius `caoe2`. -/
def Particle.cursorForce (dir : Vec → Vec) (mouse : Mouse) (p : Particle)
    (caoe2 cforce : ℚ) : Vec :=
  match mouse with
  | .noneDown => 0
  | .leftDown m =>
      let d2 := dist2 m p.pos
      if 0 < d2 ∧ d2 ≤ caoe2 then scale (-cforce) (dir (m - p.pos)) else 0
  | .rightDown m =>
      let d2 := dist2 m p.pos
      if 0 < d2 ∧ d2 ≤ caoe2 then scale cforce (dir (m - p.pos)) else 0

/-- A culture (`Culture` in `src/src/mq/sim.rs`): its particles and its
Barnes-Hut index.  The external `BHQuadtree` is embedded as the list of
weighted points handed to `build`; the render color is out of scope. -/
structure Culture : Type where
  particles : List Particle
  qt : List WPoint

/-- The default culture used for (panicking) out-of-bounds indexing. -/
def emptyCulture : Culture := ⟨[], []⟩

/-- `Culture::quadtree` (`src/src/mq/sim.rs` lines 160-167): rebuild the
culture's index from its current particle positions, each with mass 1. -/
def Culture.buildQt (c : Culture) : Culture :=
  { c with qt := c.particles.map (fun p => ⟨p.pos, 1⟩) }

/-- The type of the external `BHQuadtree::accumulate` primitive: given
the stored weighted points, a query position and a per-point force
function, return the accumulated force. -/
abbrev Acc : Type := List WPoint → Vec → (WPoint → Vec) → Vec

/-- Exact summation over all stored points: the `θ = 0` semantics of the
external `BHQuadtree::accumulate` (spec §4.1: `θ = 0` is equivalent to
exact summation).  On a one-point index it agrees with the Barnes-Hut
query combined with the kernel's own cutoff. -/
def naiveAcc : Acc := fun pts _ f => (pts.map f).sum

/-- `Culture::force` (`src/src/mq/sim.rs` lines 182-190): for each
particle of `self`, accumulate the force kernel over `other`'s index. -/
def Culture.force (acc : Acc) (dir : Vec → Vec) (self other : Culture)
    (g aoe2 : ℚ) : List Vec :=
  self.particles.map
    (fun p1 => acc other.qt p1.pos (fun wp => Particle.force dir p1 wp g aoe2))

/-- `SimConfig` from `src/src/mq/sim.rs` lines 19-32.  `bound` is the
max corner of the world rectangle (`Rect::new(Vec2::ZERO, ...)`, queried
through `bound.bb()`); the min corner is the origin. -/
structure SimConfig : Type where
  gpu : Bool
  meshJson : Option String
  bound : Vec
  numCultures : Nat
  cultureSize : Nat
  aoe2 : ℚ
  theta : ℚ
  damping : ℚ
  cursorAoe2 : ℚ
  cursorForce : ℚ
  isInteractive : Bool

/-- `SimConfig::default` (`src/src/mq/sim.rs` lines 34-50). -/
def SimConfig.default : SimConfig where
  gpu := false
  meshJson := none
  bound := (1000, 800)
  numCultures := 5
  cultureSize := 5000
  aoe2 := 100 * 100
  theta := 9 / 10
  damping := 1 / 2
  cursorAoe2 := 200 * 200
  cursorForce := 400
  isInteractive := true

/-- `World` from `src/src/mq/sim.rs` lines 193-201 (CPU path; the
optional `GpuCompute` handle is not modelled and `conf.gpu = false`
worlds never consult it). -/
structure World : Type where
  conf : SimConfig
  cultures : List Culture
  gravityMesh : List (List ℚ)
  forceTensor : List (List Vec)
  cursorForceTensor : List (List Vec)
  i : Nat

/-- `self.force_tensor[c1].fill(Vec2::ZERO)`: zero a tensor row keeping
its length. -/
def fillZero (row : List Vec) : List Vec := row.map (fun _ => (0 : Vec))

/-- `for p in 0..forces.len() { self.force_tensor[c1][p] += forces[p] }`:
add `forces` into `row` entrywise, keeping `row`'s length.  (When
`forces` is longer than `row` the source would panic on the index; all
theorems stay in the equal-length regime.) -/
def addForces (row forces : List Vec) : List Vec :=
  (List.range row.length).map (fun p => row.getD p 0 + forces.getD p 0)

/-- `for f in &mut self.force_tensor[c1] { *f /= self.cultures.len() }`:
divide a row componentwise by the number of cultures. -/
def divByCultures (C : Nat) (row : List Vec) : List Vec :=
  row.map (fun f => (f.1 / (C : ℚ), f.2 / (C : ℚ)))

/-- `World::compute_force` from `src/src/mq/sim.rs` lines 284-310:
rebuild every culture's quadtree, then for every target culture `c1`
zero its tensor row, accumulate `Culture::force` against every source
culture `c2` with coefficient `gravity_mesh[c1][c2]`, and divide the row
by the number of cultures. -/
def World.computeForce (acc : Acc) (dir : Vec → Vec) (w : World) : World :=
  let cultures := w.cultures.map Culture.buildQt
  let C := cultures.length
  let forceTensor :=
    (List.range C).map (fun c1 =>
      divByCultures C
        ((List.range C).foldl
          (fun row c2 =>
            addForces row
              (Culture.force acc dir (cultures.getD c1 emptyCulture)
                (cultures.getD c2 emptyCulture)
                ((w.gravityMesh.getD c1 []).getD c2 0) w.conf.aoe2))
          (fillZero (w.forceTensor.getD c1 []))))
  { w with cultures := cultures, forceTensor := forceTensor }

/-- One axis of the wall reflection inside `apply_force_tensor`: given
the current coordinate `x`, the wall coordinate `lim` and the damped
velocity component `v`, return the reflected velocity component and the
clamped base coordinate: at `x ≤ 0` snap to `0` with inward `|v|`, at
`x ≥ lim` snap to `lim` with inward `-|v|`, otherwise unchanged. -/
def reflectAxis (x lim v : ℚ) : ℚ × ℚ :=
  if x ≤ 0 then (|v|, 0)
  else if lim ≤ x then (-|v|, lim)
  else (v, x)

/-- The per-particle body of `World::apply_force_tensor`
(`src/src/mq/sim.rs` lines 334-357, identical inside `World::step` of
`src/src/sim.rs` lines 266-287): damp the velocity, reflect and clamp at
the walls, then integrate the position. -/
def integrate (damping tau : ℚ) (bound : Vec) (p : Particle)
    (force : Vec) : Particle :=
  let v := scale damping (p.vel + force)
  let vpx := reflectAxis p.pos.1 bound.1 v.1
  let vpy := reflectAxis p.pos.2 bound.2 v.2
  { pos := (vpx.2 + vpx.1 * tau, vpy.2 + vpy.1 * tau),
    vel := (vpx.1, vpy.1) }

/-- The double loop of `World::apply_force_tensor`: update every
particle with its force-tensor and cursor-tensor entry. -/
def applyTensor (damping tau : ℚ) (bound : Vec) (cultures : List Culture)
    (ft fct : List (List Vec)) : List Culture :=
  List.zipWith
    (fun (cu : Culture) (rows : List Vec × List Vec) =>
      { cu with
          particles :=
            List.zipWith
              (fun p fp => integrate damping tau bound p (fp.1 + fp.2))
              cu.particles (List.zip rows.1 rows.2) })
    cultures (List.zip ft fct)

/-- `World::apply_force_tensor` (`src/src/mq/sim.rs` lines 334-357). -/
def World.applyForceTensor (tau : ℚ) (w : World) : World :=
  { w with
      cultures :=
        applyTensor w.conf.damping tau w.conf.bound w.cultures
          w.forceTensor w.cursorForceTensor }

/-- The cursor-force pass of `World::step` (`src/src/mq/sim.rs` lines
319-327). -/
def World.computeCursorTensor (dir : Vec → Vec) (mouse : Mouse)
    (w : World) : List (List Vec) :=
  w.cultures.map
    (fun cu =>
      cu.particles.map
        (fun p =>
          Particle.cursorForce dir mouse p w.conf.cursorAoe2
            w.conf.cursorForce))

/-- `World::step` from `src/src/mq/sim.rs` lines 312-332 (CPU path,
`gpu = false`): compute the force tensor, compute the cursor tensor when
interactive, apply both, and advance the tick counter. -/
def World.step (acc : Acc) (dir : Vec → Vec) (mouse : Mouse) (tau : ℚ)
    (w : World) : World :=
  let w1 := w.computeForce acc dir
  let w2 :=
    if w1.conf.isInteractive then
      { w1 with cursorForceTensor := w1.computeCursorTensor dir mouse }
    else w1
  let w3 := w2.applyForceTensor tau
  { w3 with i := w3.i + 1 }

/-- `SimConfig` from the legacy `src/src/sim.rs` lines 14-24 (no `gpu`,
`mesh_json` or `is_interactive` field). -/
structure LegacyConfig : Type where
  bound : Vec
  numCultures : Nat
  cultureSize : Nat
  aoe2 : ℚ
  theta : ℚ
  damping : ℚ
  cursorAoe2 : ℚ
  cursorForce : ℚ

/-- `World` from the legacy `src/src/sim.rs` lines 194-202. -/
structure LegacyWorld : Type where
  conf : LegacyConfig
  cultures : List Culture
  gravityMesh : List (List ℚ)
  forceTensor : List (List Vec)
  cursorForceTensor : List (List Vec)
  i : Nat

/-- `World::compute_force_tensor_slice` from `src/src/sim.rs` lines
292-304: zero row `c1` and accumulate `Culture::force` against every
source culture (no division by the culture count here). -/
def LegacyWorld.computeForceTensorSlice (acc : Acc) (dir : Vec → Vec)
    (w : LegacyWorld) (c1 : Nat) : List Vec :=
  (List.range w.cultures.length).foldl
    (fun row c2 =>
      addForces row
        (Culture.force acc dir (w.cultures.getD c1 emptyCulture)
          (w.cultures.getD c2 emptyCulture)
          ((w.gravityMesh.getD c1 []).getD c2 0) w.conf.aoe2))
    (fillZero (w.forceTensor.getD c1 []))

/-- `World::step` from the legacy `src/src/sim.rs` lines 241-290:
rebuild every quadtree, compute the ROLLING slice `c1 = i mod C` of the
force tensor and divide that row by `C`, compute the cursor tensor, and
apply forces with damping, wall reflection and position integration. -/
def LegacyWorld.step (acc : Acc) (dir : Vec → Vec) (mouse : Mouse)
    (tau : ℚ) (w : LegacyWorld) : LegacyWorld :=
  let cultures := w.cultures.map Culture.buildQt
  let w1 := { w with cultures := cultures }
  let c1 := w.i % cultures.length
  let row :=
    divByCultures cultures.length (w1.computeForceTensorSlice acc dir c1)
  let forceTensor := w1.forceTensor.set c1 row
  let cursorForceTensor :=
    cultures.map
      (fun cu =>
        cu.particles.map
          (fun p =>
            Particle.cursorForce dir mouse p w.conf.cursorAoe2
              w.conf.cursorForce))
  { w with
      cultures :=
        applyTensor w.conf.damping tau w.conf.bound cultures forceTensor
          cursorForceTensor
      forceTensor := forceTensor
      cursorForceTensor := cursorForceTensor
      i := w.i + 1 }

/-- The deterministic core of `World::new` (`src/src/mq/sim.rs` lines
204-248) once the gravity mesh is fixed: spawn `numCultures` cultures of
`cultureSize` particles with externally supplied (random) positions and
zero velocity, and zero both tensors.  The `conf.gpu = true` branch
(GPU handle creation) is not modelled. -/
def mkWorld (conf : SimConfig) (mesh : List (List ℚ))
    (randPos : Nat → Nat → Vec) : World where
  conf := conf
  cultures :=
    (List.range conf.numCultures).map
      (fun c =>
        { particles :=
            (List.range conf.cultureSize).map
              (fun k => { pos := randPos c k, vel := 0 })
          qt := [] })
  gravityMesh := mesh
  forceTensor :=
    List.replicate conf.numCultures (List.replicate conf.cultureSize 0)
  cursorForceTensor :=
    List.replicate conf.numCultures (List.replicate conf.cultureSize 0)
  i := 0

/-- `World::new` from `src/src/mq/sim.rs` lines 204-248.  The external
`serde_json::from_str` is abstracted as `parse`; its `unwrap` panic on
invalid JSON is modelled as `none`.  When a mesh is supplied,
`conf.num_cultures` is overridden by the mesh's outer length; otherwise
the externally supplied random mesh `randMesh` is used.  No field of the
configuration is validated. -/
def World.new (parse : String → Option (List (List ℚ)))
    (randMesh : List (List ℚ)) (randPos : Nat → Nat → Vec)
    (conf : SimConfig) : Option World :=
  match conf.meshJson with
  | some s =>
      match parse s with
      | none => none
      | some mesh =>
          some (mkWorld { conf with numCultures := mesh.length } mesh randPos)
  | none => some (mkWorld conf randMesh randPos)

/-- `World::export_gravity_mesh_json` (`src/src/mq/sim.rs` lines
380-382); the external `serde_json::to_string` is abstracted as
`print`. -/
def World.exportGravityMeshJson (print : List (List ℚ) → String)
    (w : World) : String :=
  print w.gravityMesh

/-- `GpuParams` from `src/wgpu/src/app.rs` lines 29-41 (only the fields
the grid claims mention). -/
structure GpuParams : Type where
  bound : Vec
  numCultures : Nat
  cultureSize : Nat
  numParticles : Nat
  aoe : ℚ
  aoe2 : ℚ
  damping : ℚ
  binSize : ℚ
  gridW : Nat

/-- `GpuParams::new` from `src/wgpu/src/app.rs` lines 43-60:
`grid_w = ceil(bound.x / (aoe * 2))` and `bin_size = bound.x / grid_w`
(computed with the pre-cast ceiling; the `as u32` cast saturates
negative values to `0`). -/
def GpuParams.new (numCultures cultureSize : Nat) (aoe damping : ℚ) :
    GpuParams :=
  let bound : Vec := (1000, 1000)
  let gridW : ℤ := Int.ceil (bound.1 / (aoe * 2))
  let binSize : ℚ := bound.1 / (gridW : ℚ)
  { bound := bound
    numCultures := numCultures
    cultureSize := cultureSize
    numParticles := numCultures * cultureSize
    aoe := aoe
    aoe2 := aoe * aoe
    damping := damping
    binSize := binSize
    gridW := gridW.toNat }

/-- The state of `GpuCompute` (`src/src/gpu.rs` lines 12-21) relevant to
the dispatch claims: the frozen particle count and the two fixed-size
GPU buffers (each with `num_particles` slots of `[f32; 2]`). -/
structure GpuCompute : Type where
  numParticles : Nat
  particleBuffer : List Vec
  forceBuffer : List Vec

/-- `GpuCompute::new` (`src/src/gpu.rs` lines 24-109): the particle and
force buffers are created with exactly
`num_particles = num_cultures * culture_size` slots (zero-filled). -/
def GpuCompute.new (numCultures cultureSize : Nat) : GpuCompute where
  numParticles := numCultures * cultureSize
  particleBuffer := List.replicate (numCultures * cultureSize) 0
  forceBuffer := List.replicate (numCultures * cultureSize) 0

/-- GPU buffer write semantics: write `data` from offset 0 into the
fixed-size buffer `buf`.  The buffer's size never changes; slots past
the written range keep their previous contents. -/
def writeBuffer (buf data : List Vec) : List Vec :=
  data.take buf.length ++ buf.drop (min data.length buf.length)

/-- `GpuCompute::run` (`src/src/gpu.rs` lines 111-150).  The compute
shader `force.wgsl` (dispatched on the GPU, not part of `src/`) is
abstracted as `shader`; it writes into the fixed-size force buffer.  The
download-buffer copy returns the whole force buffer.  The initial
`assert_eq!(particles.len(), num_particles)` panic is modelled as
`none`, returned before any buffer is written (the returned state is the
input state unchanged). -/
def GpuCompute.run (shader : List Vec → List Vec) (gc : GpuCompute)
    (particles : List Vec) : GpuCompute × Option (List Vec) :=
  if particles.length = gc.numParticles then
    let pb := writeBuffer gc.particleBuffer particles
    let fb := writeBuffer gc.forceBuffer (shader pb)
    ({ gc with particleBuffer := pb, forceBuffer := fb }, some fb)
  else
    (gc, none)

/-- A rectangle of the wasm quadtree (`src/wasm/src/qt.rs` lines 12-39):
the two corners and the precomputed center.  (`end` is a reserved word
in Lean; the field is named `stop`.) -/
structure QRect : Type where
  start : Vec
  center : Vec
  stop : Vec
  deriving DecidableEq, Repr

/-- `Rect::new` (`src/wasm/src/qt.rs` lines 20-26): the center is the
midpoint `na::center(start, end)`. -/
def QRect.make (s e : Vec) : QRect :=
  ⟨s, ((s.1 + e.1) / 2, (s.2 + e.2) / 2), e⟩

/-- `Rect::width` (`src/wasm/src/qt.rs` lines 33-38): a quarter of the
perimeter. -/
def QRect.width (r : QRect) : ℚ :=
  ((r.stop.1 - r.start.1) * 2 + (r.stop.2 - r.start.2) * 2) / 4

/-- `WeightedPoint` of the wasm quadtree (`src/wasm/src/qt.rs` lines
41-51): position and integer (`u32`) mass. -/
structure QWPoint : Type where
  pos : Vec
  mass : Nat
  deriving DecidableEq, Repr

/-- The wasm Barnes-Hut quadtree (`src/wasm/src/qt.rs` lines 62-76):
internal nodes hold four children and a center of mass, external nodes a
single weighted point. -/
inductive QuadTree : Type
  | empty (boundary : QRect) : QuadTree
  | external (boundary : QRect) (point : QWPoint) : QuadTree
  | internal (boundary : QRect) (c0 c1 c2 c3 : QuadTree)
      (cm : QWPoint) : QuadTree
  deriving DecidableEq, Repr

/-- The query particle of the wasm path (`Particle` in
`src/wasm/src/sim.rs`): position, velocity and AoE radius. -/
structure QParticle : Type where
  pos : Vec
  vel : Vec
  aoe : ℚ
  deriving DecidableEq, Repr

/-- `QuadTree::approximate_points` (`src/wasm/src/qt.rs` lines 165-204).
Distance guards are embedded in squared form: the source's
`na::distance(q, p) > aoe` is `aoe² < dist2 q p` (equivalent for
`aoe ≥ 0`) and the multipole test `w / d < theta` is
`w² < theta² · d²` (equivalent for `w, theta ≥ 0`, including the `d = 0`
float corner where `w / 0` is `inf` or `NaN` and the source
recurses). -/
def QuadTree.approximatePoints (t : QuadTree) (particle : QParticle)
    (theta : ℚ) : Option (List QWPoint) :=
  match t with
  | .empty _ => none
  | .external _ p =>
      if particle.aoe * particle.aoe < dist2 particle.pos p.pos then none
      else some [p]
  | .internal b c0 c1 c2 c3 cm =>
      let w := b.width
      let d2 := dist2 particle.pos b.center
      if w * w < theta * theta * d2 then
        if particle.aoe * particle.aoe < dist2 particle.pos cm.pos then
          none
        else some [cm]
      else
        some ((c0.approximatePoints particle theta).getD [] ++
          ((c1.approximatePoints particle theta).getD [] ++
            ((c2.approximatePoints particle theta).getD [] ++
              (c3.approximatePoints particle theta).getD [])))

/-- The stored leaf points of a wasm quadtree, in order. -/
def QuadTree.leafPoints : QuadTree → List QWPoint
  | .empty _ => []
  | .external _ p => [p]
  | .internal _ c0 c1 c2 c3 _ =>
      c0.leafPoints ++ (c1.leafPoints ++ (c2.leafPoints ++ c3.leafPoints))

/-- Total mass of a list of weighted points. -/
def massSum (l : List QWPoint) : Nat :=
  (l.map (fun p => p.mass)).sum

/-- A wasm quadtree is well-measured when every internal node's center
of mass carries exactly the total mass of its descendants' leaf points —
the state `measure_nodes` (`src/wasm/src/qt.rs` lines 139-163)
establishes after construction. -/
def QuadTree.wellMeasured : QuadTree → Bool
  | .empty _ => true
  | .external _ _ => true
  | .internal _ c0 c1 c2 c3 cm =>
      decide
        (cm.mass =
          massSum c0.leafPoints + (massSum c1.leafPoints +
            (massSum c2.leafPoints + massSum c3.leafPoints))) &&
        (c0.wellMeasured && (c1.wellMeasured &&
          (c2.wellMeasured && c3.wellMeasured)))

/-! ## General lemmas -/

theorem writeBuffer_length (buf data : List Vec) :
    (writeBuffer buf data).length = buf.length := by
  simp only [writeBuffer, List.length_append, List.length_take,
    List.length_drop]
  omega

/-! ## C10: GPU dispatch length discipline -/

/-- **C10.** `GpuCompute::run` requires its input slice to have exactly
`num_cultures * culture_size` elements: for an input of that length it
returns a force vector of the same length (the downloaded force buffer),
and for any other length it panics (modelled as `none`) before writing
to any GPU buffer (the state is returned unchanged) — for every
shader. -/
theorem gpuRun_requires_exact_length (numCultures cultureSize : Nat)
    (shader : List Vec → List Vec) (particles : List Vec) :
    (particles.length = numCultures * cultureSize →
      Option.map List.length
          (((GpuCompute.new numCultures cultureSize).run shader
            particles).2) =
        some particles.length) ∧
    (particles.length ≠ numCultures * cultureSize →
      (GpuCompute.new numCultures cultureSize).run shader particles =
        (GpuCompute.new numCultures cultureSize, none)) := by
  constructor
  · intro h
    have hn : particles.length = (GpuCompute.new numCultures
        cultureSize).numParticles := h
    simp only [GpuCompute.run, if_pos hn]
    simp [writeBuffer_length, GpuCompute.new, h]
  · intro h
    have hn : particles.length ≠ (GpuCompute.new numCultures
        cultureSize).numParticles := h
    simp only [GpuCompute.run, if_neg hn]

/-- Witness for C10 at `num_cultures = 2`, `culture_size = 3`: an input
of length 6 yields an output of length 6; an input of length 5 panics
with the state untouched. -/
theorem gpuRun_requires_exact_length_witness :
    Option.map List.length
        (((GpuCompute.new 2 3).run (fun l => l)
          (List.replicate 6 (0 : Vec))).2) =
      some (List.replicate 6 (0 : Vec)).length ∧
    (GpuCompute.new 2 3).run (fun l => l) (List.replicate 5 (0 : Vec)) =
      (GpuCompute.new 2 3, none) :=
  ⟨(gpuRun_requires_exact_length 2 3 (fun l => l)
      (List.replicate 6 0)).1 (by decide),
   (gpuRun_requires_exact_length 2 3 (fun l => l)
      (List.replicate 5 0)).2 (by decide)⟩

/-! ## C8: GPU grid cell size -/

/-- **C8 (counterexample).** At `aoe = 150` the cell size is
`1000 / ⌈1000 / 300⌉ = 250 < 300 = 2r`: the claim that the resulting
cell size is at least `2r` wide is false. -/
theorem gpuParams_cell_not_ge_2r :
    (GpuParams.new 8 5000 150 (1 / 4)).binSize = 250 ∧
    ¬ ((2 * 150 : ℚ) ≤ (GpuParams.new 8 5000 150 (1 / 4)).binSize) := by
  have hceil : Int.ceil ((1000 : ℚ) / (150 * 2)) = 4 := by
    norm_num [Int.ceil_eq_iff]
  constructor
  · show (1000 : ℚ) / ((Int.ceil ((1000 : ℚ) / (150 * 2)) : ℤ) : ℚ) = 250
    rw [hceil]
    norm_num
  · show ¬ ((2 * 150 : ℚ) ≤
      (1000 : ℚ) / ((Int.ceil ((1000 : ℚ) / (150 * 2)) : ℤ) : ℚ))
    rw [hceil]
    norm_num

/-- **C8 (amended).** On the GPU grid path, for `aoe > 0`, the grid
width is `⌈W / (2r)⌉` and the cell size `W / grid_w`, and the resulting
cell size is at MOST `2r` wide (and at least `r` whenever
`2r ≤ W`). -/
theorem gpuParams_grid (numCultures cultureSize : Nat)
    (aoe damping : ℚ) (ha : 0 < aoe) :
    ((GpuParams.new numCultures cultureSize aoe damping).gridW : ℤ) =
        Int.ceil ((1000 : ℚ) / (aoe * 2)) ∧
    (GpuParams.new numCultures cultureSize aoe damping).binSize =
        (1000 : ℚ) / ((Int.ceil ((1000 : ℚ) / (aoe * 2)) : ℤ) : ℚ) ∧
    (GpuParams.new numCultures cultureSize aoe damping).binSize ≤
        2 * aoe ∧
    (2 * aoe ≤ 1000 →
      aoe ≤ (GpuParams.new numCultures cultureSize aoe damping).binSize) := by
  have hx : (0 : ℚ) < 1000 / (aoe * 2) := by positivity
  have hceil : (0 : ℤ) < Int.ceil ((1000 : ℚ) / (aoe * 2)) :=
    Int.ceil_pos.mpr hx
  have hceilq : (0 : ℚ) < ((Int.ceil ((1000 : ℚ) / (aoe * 2)) : ℤ) : ℚ) := by
    exact_mod_cast hceil
  have hlex : (1000 : ℚ) / (aoe * 2) ≤
      ((Int.ceil ((1000 : ℚ) / (aoe * 2)) : ℤ) : ℚ) := Int.le_ceil _
  refine ⟨?_, rfl, ?_, ?_⟩
  · simp only [GpuParams.new]
    exact Int.toNat_of_nonneg (le_of_lt hceil)
  · show (1000 : ℚ) / ((Int.ceil ((1000 : ℚ) / (aoe * 2)) : ℤ) : ℚ) ≤ 2 * aoe
    have h2 : (1000 : ℚ) / (1000 / (aoe * 2)) = aoe * 2 := by
      field_simp
    calc (1000 : ℚ) / ((Int.ceil ((1000 : ℚ) / (aoe * 2)) : ℤ) : ℚ)
        ≤ (1000 : ℚ) / (1000 / (aoe * 2)) :=
          (div_le_div_iff_of_pos_left (by norm_num) hceilq hx).mpr hlex
      _ = 2 * aoe := by rw [h2]; ring
  · intro h2a
    show aoe ≤ (1000 : ℚ) / ((Int.ceil ((1000 : ℚ) / (aoe * 2)) : ℤ) : ℚ)
    have hx1 : (1 : ℚ) ≤ 1000 / (aoe * 2) := by
      rw [le_div_iff₀ (by positivity)]
      linarith
    have hub : ((Int.ceil ((1000 : ℚ) / (aoe * 2)) : ℤ) : ℚ) ≤
        2 * (1000 / (aoe * 2)) := by
      have := Int.ceil_lt_add_one ((1000 : ℚ) / (aoe * 2))
      linarith
    have h2x : (0 : ℚ) < 2 * (1000 / (aoe * 2)) := by positivity
    have hfinal : (1000 : ℚ) / (2 * (1000 / (aoe * 2))) = aoe := by
      field_simp
      ring
    calc aoe = (1000 : ℚ) / (2 * (1000 / (aoe * 2))) := hfinal.symm
      _ ≤ (1000 : ℚ) / ((Int.ceil ((1000 : ℚ) / (aoe * 2)) : ℤ) : ℚ) :=
          (div_le_div_iff_of_pos_left (by norm_num) h2x hceilq).mpr hub

/-- Witness for C8's amended claim at `aoe = 100`: grid width 5, cell
size `200 = 2r`, and `r = 100 ≤ 200`. -/
theorem gpuParams_grid_witness :
    ((GpuParams.new 8 5000 100 (1 / 4)).gridW : ℤ) =
        Int.ceil ((1000 : ℚ) / (100 * 2)) ∧
    (GpuParams.new 8 5000 100 (1 / 4)).binSize =
        (1000 : ℚ) / ((Int.ceil ((1000 : ℚ) / (100 * 2)) : ℤ) : ℚ) ∧
    (GpuParams.new 8 5000 100 (1 / 4)).binSize ≤ 2 * 100 ∧
    ((2 * 100 : ℚ) ≤ 1000 →
      (100 : ℚ) ≤ (GpuParams.new 8 5000 100 (1 / 4)).binSize) :=
  gpuParams_grid 8 5000 100 (1 / 4) (by norm_num)

/-! ## C9: construction-time validation -/

/-- A configuration violating every validation rule the claim lists:
`num_cultures = 0`, `culture_size = 0`, `aoe² = 0`, no GPU. -/
def invalidConf : SimConfig :=
  { SimConfig.default with numCultures := 0, cultureSize := 0, aoe2 := 0 }

/-- **C9 (counterexample).** `World::new` does NOT reject an invalid
configuration: with `num_cultures = 0`, `culture_size = 0` and a
non-positive AoE the world is still created. -/
theorem worldNew_accepts_invalid :
    (World.new (fun _ => none) [] (fun _ _ => 0) invalidConf).isSome =
        true ∧
    invalidConf.numCultures = 0 ∧ invalidConf.cultureSize = 0 ∧
    invalidConf.aoe2 = 0 :=
  ⟨rfl, rfl, rfl, rfl⟩

/-- **C9 (amended).** World construction performs no validation of the
configuration: without a supplied mesh it always succeeds (for any
`num_cultures`, `culture_size` and AoE), and with a supplied mesh it
fails if and only if the JSON does not parse (`serde_json::from_str`'s
`unwrap` panic); any parsed mesh shape is accepted. -/
theorem worldNew_no_validation (parse : String → Option (List (List ℚ)))
    (randMesh : List (List ℚ)) (randPos : Nat → Nat → Vec)
    (conf : SimConfig) :
    (conf.meshJson = none →
      (World.new parse randMesh randPos conf).isSome = true) ∧
    (∀ s, conf.meshJson = some s →
      ((World.new parse randMesh randPos conf = none) ↔
        parse s = none)) := by
  constructor
  · intro h
    simp [World.new, h]
  · intro s hs
    cases hp : parse s <;> simp [World.new, hs, hp]

/-- Witness for C9's amended claim: the default configuration (no mesh)
always constructs, and a parse failure on a supplied mesh aborts
construction. -/
theorem worldNew_no_validation_witness :
    (World.new (fun _ => none) [] (fun _ _ => 0)
        SimConfig.default).isSome = true ∧
    (World.new (fun _ => none) [] (fun _ _ => 0)
        { SimConfig.default with meshJson := some "bad" } = none) := by
  constructor
  · exact (worldNew_no_validation (fun _ => none) [] (fun _ _ => 0)
      SimConfig.default).1 rfl
  · exact ((worldNew_no_validation (fun _ => none) [] (fun _ _ => 0)
      { SimConfig.default with meshJson := some "bad" }).2 "bad" rfl).mpr rfl

/-! ## C6: gravity-mesh round trip -/

/-- **C6.** Exporting a world's gravity mesh and constructing a new
world with that JSON as the supplied mesh yields a world whose gravity
mesh equals the exported one element for element, and whose culture
count equals the mesh's outer length.  `parse`/`print` abstract
`serde_json`; the hypothesis is that crate's round-trip contract at this
mesh. -/
theorem mesh_roundtrip (parse : String → Option (List (List ℚ)))
    (print : List (List ℚ) → String) (w : World)
    (randMesh : List (List ℚ)) (randPos : Nat → Nat → Vec)
    (conf : SimConfig)
    (hserde : parse (print w.gravityMesh) = some w.gravityMesh) :
    ∃ w2 : World,
      World.new parse randMesh randPos
          { conf with meshJson := some (w.exportGravityMeshJson print) } =
        some w2 ∧
      w2.gravityMesh = w.gravityMesh ∧
      w2.conf.numCultures = w.gravityMesh.length := by
  simp only [World.new, World.exportGravityMeshJson, hserde]
  exact ⟨_, rfl, rfl, rfl⟩

/-- The concrete world used by the C6 witness: one culture, mesh
`[[1/2]]`. -/
def c6World : World :=
  mkWorld { SimConfig.default with numCultures := 1, cultureSize := 2 }
    [[1 / 2]] (fun _ _ => 0)

/-- Witness for C6 with a codec that round-trips the mesh `[[1/2]]`. -/
theorem mesh_roundtrip_witness :
    ∃ w2 : World,
      World.new (fun _ => some [[1 / 2]]) [] (fun _ _ => 0)
          { SimConfig.default with
              meshJson := some (c6World.exportGravityMeshJson
                (fun _ => "mesh")) } =
        some w2 ∧
      w2.gravityMesh = c6World.gravityMesh ∧
      w2.conf.numCultures = c6World.gravityMesh.length :=
  mesh_roundtrip (fun _ => some [[1 / 2]]) (fun _ => "mesh") c6World []
    (fun _ _ => 0) SimConfig.default rfl

/-! ## C7: wasm Barnes-Hut query contract -/

theorem massSum_append (a b : List QWPoint) :
    massSum (a ++ b) = massSum a + massSum b := by
  simp [massSum]

/-- **C7.** For every well-measured wasm quadtree and every query
particle, the Barnes-Hut query emits weighted points whose total mass
never exceeds the total mass stored in the leaves (each stored leaf
point is counted at most once — a node's center of mass stands for its
leaves exactly once), and never emits a weighted point whose distance
from the query exceeds the particle's AoE radius (squared form). -/
theorem approximatePoints_contract (t : QuadTree) (particle : QParticle)
    (theta : ℚ) (hwm : t.wellMeasured = true) :
    massSum ((t.approximatePoints particle theta).getD []) ≤
        massSum t.leafPoints ∧
    ∀ wp ∈ (t.approximatePoints particle theta).getD [],
      dist2 particle.pos wp.pos ≤ particle.aoe * particle.aoe := by
  induction t with
  | empty b =>
      simp [QuadTree.approximatePoints, massSum]
  | external b p =>
      by_cases h : particle.aoe * particle.aoe < dist2 particle.pos p.pos
      · simp [QuadTree.approximatePoints, h, massSum]
      · simp only [QuadTree.approximatePoints, if_neg h, Option.getD_some]
        refine ⟨le_refl _, ?_⟩
        intro wp hwp
        simp only [List.mem_singleton] at hwp
        subst hwp
        exact le_of_not_lt h
  | internal b c0 c1 c2 c3 cm ih0 ih1 ih2 ih3 =>
      simp only [QuadTree.wellMeasured, Bool.and_eq_true,
        decide_eq_true_eq] at hwm
      obtain ⟨hmass, h0, h1, h2, h3⟩ := hwm
      obtain ⟨m0, d0⟩ := ih0 h0
      obtain ⟨m1, d1⟩ := ih1 h1
      obtain ⟨m2, d2'⟩ := ih2 h2
      obtain ⟨m3, d3⟩ := ih3 h3
      by_cases hmac : b.width * b.width <
          theta * theta * dist2 particle.pos b.center
      · by_cases hr : particle.aoe * particle.aoe <
            dist2 particle.pos cm.pos
        · simp [QuadTree.approximatePoints, hmac, hr, massSum]
        · simp only [QuadTree.approximatePoints, if_pos hmac, if_neg hr,
            Option.getD_some]
          constructor
          · have hsingle : massSum [cm] = cm.mass := by simp [massSum]
            have htot :
                massSum (QuadTree.leafPoints
                    (QuadTree.internal b c0 c1 c2 c3 cm)) =
                  massSum c0.leafPoints + (massSum c1.leafPoints +
                    (massSum c2.leafPoints + massSum c3.leafPoints)) := by
              simp [QuadTree.leafPoints, massSum_append]
            rw [hsingle, htot, hmass]
          · intro wp hwp
            simp only [List.mem_singleton] at hwp
            subst hwp
            exact le_of_not_lt hr
      · simp only [QuadTree.approximatePoints, if_neg hmac,
          Option.getD_some]
        constructor
        · simp only [QuadTree.leafPoints, massSum_append]
          omega
        · intro wp hwp
          simp only [List.mem_append] at hwp
          rcases hwp with h | h | h | h
          · exact d0 wp h
          · exact d1 wp h
          · exact d2' wp h
          · exact d3 wp h

/-- The concrete well-measured tree used by the C7 witness: a root with
two occupied quadrants. -/
def c7Tree : QuadTree :=
  .internal (QRect.make (0, 0) (100, 100))
    (.external (QRect.make (0, 0) (50, 50)) ⟨(10, 10), 1⟩)
    (.external (QRect.make (50, 0) (100, 50)) ⟨(90, 20), 2⟩)
    (.empty (QRect.make (0, 50) (50, 100)))
    (.empty (QRect.make (50, 50) (100, 100)))
    ⟨(190 / 3, 50 / 3), 3⟩

/-- Witness for C7 on a concrete two-leaf tree and query. -/
theorem approximatePoints_contract_witness :
    massSum ((c7Tree.approximatePoints ⟨(10, 10), (0, 0), 50⟩
        (9 / 10)).getD []) ≤
      massSum c7Tree.leafPoints ∧
    ∀ wp ∈ (c7Tree.approximatePoints ⟨(10, 10), (0, 0), 50⟩
        (9 / 10)).getD [],
      dist2 (10, 10) wp.pos ≤ 50 * 50 :=
  approximatePoints_contract c7Tree ⟨(10, 10), (0, 0), 50⟩ (9 / 10)
    (by decide)

/-! ## Indexing lemmas for the force-tensor loops -/

/-- The default particle used for out-of-bounds indexing. -/
def defaultParticle : Particle := ⟨0, 0⟩

theorem getD_map_of_lt {α β : Type} (f : α → β) (l : List α) (i : Nat)
    (d : α) (e : β) (h : i < l.length) :
    (l.map f).getD i e = f (l.getD i d) := by
  rw [List.getD_eq_getElem _ _ (by simpa using h),
    List.getD_eq_getElem _ _ h, List.getElem_map]

theorem getD_map_range {β : Type} (f : Nat → β) (n i : Nat) (e : β)
    (h : i < n) :
    ((List.range n).map f).getD i e = f i := by
  rw [getD_map_of_lt f (List.range n) i 0 e (by simpa using h),
    List.getD_eq_getElem _ _ (by simpa using h), List.getElem_range]

theorem fillZero_length (row : List Vec) :
    (fillZero row).length = row.length := by
  simp [fillZero]

theorem fillZero_getD (row : List Vec) (k : Nat) (h : k < row.length) :
    (fillZero row).getD k 0 = 0 :=
  getD_map_of_lt _ row k 0 0 h

theorem addForces_length (row fs : List Vec) :
    (addForces row fs).length = row.length := by
  simp [addForces]

theorem addForces_getD (row fs : List Vec) (k : Nat)
    (h : k < row.length) :
    (addForces row fs).getD k 0 = row.getD k 0 + fs.getD k 0 := by
  unfold addForces
  exact getD_map_range _ row.length k 0 h

theorem divByCultures_length (C : Nat) (row : List Vec) :
    (divByCultures C row).length = row.length := by
  simp [divByCultures]

theorem divByCultures_getD (C : Nat) (row : List Vec) (k : Nat)
    (h : k < row.length) :
    (divByCultures C row).getD k 0 =
      ((row.getD k 0).1 / (C : ℚ), (row.getD k 0).2 / (C : ℚ)) := by
  unfold divByCultures
  rw [getD_map_of_lt _ row k 0 0 h]

theorem foldl_addForces_length (F : Nat → List Vec) (js : List Nat)
    (z : List Vec) :
    (js.foldl (fun row j => addForces row (F j)) z).length = z.length := by
  induction js generalizing z with
  | nil => rfl
  | cons j js ih => rw [List.foldl_cons, ih, addForces_length]

theorem foldl_addForces_getD (F : Nat → List Vec) (js : List Nat)
    (z : List Vec) (k : Nat) (hk : k < z.length) :
    (js.foldl (fun row j => addForces row (F j)) z).getD k 0 =
      z.getD k 0 + (js.map (fun j => (F j).getD k 0)).sum := by
  induction js generalizing z with
  | nil => simp
  | cons j js ih =>
      rw [List.foldl_cons, List.map_cons, List.sum_cons,
        ih (addForces z (F j)) (by rw [addForces_length]; exact hk),
        addForces_getD z (F j) k hk, add_assoc]

theorem culture_force_getD (acc : Acc) (dir : Vec → Vec)
    (self other : Culture) (g aoe2 : ℚ) (k : Nat)
    (h : k < self.particles.length) :
    (Culture.force acc dir self other g aoe2).getD k 0 =
      acc other.qt (self.particles.getD k defaultParticle).pos
        (fun wp =>
          Particle.force dir (self.particles.getD k defaultParticle) wp g
            aoe2) := by
  unfold Culture.force
  rw [getD_map_of_lt _ self.particles k defaultParticle 0 h]

/-- A one-culture, one-particle world over the default 1000×800 bound
with damping 1, used for concrete scenarios.  With a single particle the
only kernel evaluation is the self-interaction at distance 0, so the
Barnes-Hut accumulator and `naiveAcc` coincide on it. -/
def oneParticleWorld (pos vel : Vec) : World where
  conf := { SimConfig.default with numCultures := 1, cultureSize := 1, damping := 1, isInteractive := false }
  cultures := [⟨[⟨pos, vel⟩], []⟩]
  gravityMesh := [[1]]
  forceTensor := [[0]]
  cursorForceTensor := [[0]]
  i := 0

/-! ## C3: the force-aggregator equation -/

/-- The aggregation formula as the specification words it (spec §4.4):
for target culture `i` and particle `k`, sum over every source culture
`j` the kernel accumulated over culture `j`'s freshly built index with
coefficient `g[i][j]`, then divide by the number of cultures. -/
def aggregatorSpec (acc : Acc) (dir : Vec → Vec) (w : World)
    (i k : Nat) : Vec :=
  let C := w.cultures.length
  let p := (w.cultures.getD i emptyCulture).particles.getD k
    defaultParticle
  let s :=
    ((List.range C).map (fun j =>
      acc ((w.cultures.getD j emptyCulture).buildQt).qt p.pos
        (fun wp =>
          Particle.force dir p wp ((w.gravityMesh.getD i []).getD j 0)
            w.conf.aoe2))).sum
  (s.1 / (C : ℚ), s.2 / (C : ℚ))

/-- **C3.** For every target culture `i` and particle `k` (with the
tensor row sized to the culture, as construction guarantees), the force
tensor entry `F[i][k]` produced by `compute_force` equals the sum over
all source cultures `j` of the kernel accumulated over culture `j`'s
spatial index with coefficient `g[i][j]`, divided by the number of
cultures — for every accumulator and normalization primitive. -/
theorem computeForce_entry (acc : Acc) (dir : Vec → Vec) (w : World)
    (i k : Nat) (hi : i < w.cultures.length)
    (hrow : (w.forceTensor.getD i []).length =
      (w.cultures.getD i emptyCulture).particles.length)
    (hk : k < (w.cultures.getD i emptyCulture).particles.length) :
    ((w.computeForce acc dir).forceTensor.getD i []).getD k 0 =
      aggregatorSpec acc dir w i k := by
  unfold World.computeForce aggregatorSpec
  simp only [List.length_map]
  have hcultures :
      ∀ j, j < w.cultures.length →
        (w.cultures.map Culture.buildQt).getD j emptyCulture =
          (w.cultures.getD j emptyCulture).buildQt :=
    fun j hj => getD_map_of_lt Culture.buildQt w.cultures j emptyCulture
      emptyCulture hj
  rw [getD_map_range _ w.cultures.length i [] hi]
  have hkz : k < (fillZero (w.forceTensor.getD i [])).length := by
    rw [fillZero_length, hrow]; exact hk
  rw [divByCultures_getD _ _ k
    (by rw [foldl_addForces_length]; exact hkz)]
  rw [foldl_addForces_getD _ _ _ k hkz]
  rw [fillZero_getD _ k (by rw [← fillZero_length]; exact hkz)]
  rw [zero_add]
  have hmap :
      (List.range w.cultures.length).map (fun c2 =>
          (Culture.force acc dir
            ((w.cultures.map Culture.buildQt).getD i emptyCulture)
            ((w.cultures.map Culture.buildQt).getD c2 emptyCulture)
            ((w.gravityMesh.getD i []).getD c2 0) w.conf.aoe2).getD k 0) =
        (List.range w.cultures.length).map (fun j =>
          acc ((w.cultures.getD j emptyCulture).buildQt).qt
            ((w.cultures.getD i emptyCulture).particles.getD k
              defaultParticle).pos
            (fun wp =>
              Particle.force dir
                ((w.cultures.getD i emptyCulture).particles.getD k
                  defaultParticle) wp
                ((w.gravityMesh.getD i []).getD j 0)
                w.conf.aoe2)) := by
    apply List.map_congr_left
    intro j hj
    rw [List.mem_range] at hj
    rw [hcultures j hj, hcultures i hi]
    exact culture_force_getD acc dir _ _ _ _ k hk
  rw [hmap]

/-- Witness for C3 on a concrete one-particle world. -/
theorem computeForce_entry_witness :
    (((oneParticleWorld (0, 0) (0, 0)).computeForce naiveAcc
        dirExact).forceTensor.getD 0 []).getD 0 0 =
      aggregatorSpec naiveAcc dirExact (oneParticleWorld (0, 0) (0, 0))
        0 0 :=
  computeForce_entry naiveAcc dirExact (oneParticleWorld (0, 0) (0, 0))
    0 0 (by decide) (by decide) (by decide)

/-! ## C1: positions after a step -/

theorem exists_of_mem_zipWith {α β γ : Type} (f : α → β → γ)
    (l1 : List α) (l2 : List β) (c : γ)
    (hc : c ∈ List.zipWith f l1 l2) :
    ∃ a b, a ∈ l1 ∧ b ∈ l2 ∧ c = f a b := by
  induction l1 generalizing l2 with
  | nil => simp at hc
  | cons x xs ih =>
      cases l2 with
      | nil => simp at hc
      | cons y ys =>
          rw [List.zipWith_cons_cons] at hc
          rcases List.mem_cons.mp hc with h | h
          · exact ⟨x, y, List.mem_cons_self x xs,
              List.mem_cons_self y ys, h⟩
          · obtain ⟨a, b, ha, hb, hab⟩ := ih ys h
            exact ⟨a, b, List.mem_cons_of_mem x ha,
              List.mem_cons_of_mem y hb, hab⟩

/-- The clamped base coordinate of `reflectAxis` lies between `0` and
the wall. -/
theorem reflectAxis_base_mem (x lim v : ℚ) (hlim : 0 ≤ lim) :
    0 ≤ (reflectAxis x lim v).2 ∧ (reflectAxis x lim v).2 ≤ lim := by
  unfold reflectAxis
  by_cases h1 : x ≤ 0
  · simp [h1, hlim]
  · by_cases h2 : lim ≤ x
    · simp [h1, h2, hlim]
    · simp only [if_neg h1, if_neg h2]
      exact ⟨le_of_lt (lt_of_not_le h1), le_of_lt (lt_of_not_le h2)⟩

theorem base_step_bounds (base vv lim tau : ℚ) (h0 : 0 ≤ base)
    (h1 : base ≤ lim) (ht : 0 ≤ tau) :
    -(|vv| * tau) ≤ base + vv * tau ∧
      base + vv * tau ≤ lim + |vv| * tau := by
  constructor
  · have h : -|vv| * tau ≤ vv * tau :=
      mul_le_mul_of_nonneg_right (neg_abs_le vv) ht
    linarith
  · have h : vv * tau ≤ |vv| * tau :=
      mul_le_mul_of_nonneg_right (le_abs_self vv) ht
    linarith

/-- Per-particle version of the amended boundary invariant: after
`integrate`, the position exceeds the world rectangle by at most
`|v| · τ` per axis, where `v` is the particle's new velocity. -/
theorem integrate_bounds (damping tau : ℚ) (bound : Vec) (p : Particle)
    (force : Vec) (hW : 0 ≤ bound.1) (hH : 0 ≤ bound.2) (ht : 0 ≤ tau) :
    -(|(integrate damping tau bound p force).vel.1| * tau) ≤
        (integrate damping tau bound p force).pos.1 ∧
    (integrate damping tau bound p force).pos.1 ≤
        bound.1 + |(integrate damping tau bound p force).vel.1| * tau ∧
    -(|(integrate damping tau bound p force).vel.2| * tau) ≤
        (integrate damping tau bound p force).pos.2 ∧
    (integrate damping tau bound p force).pos.2 ≤
        bound.2 + |(integrate damping tau bound p force).vel.2| * tau := by
  have hx := reflectAxis_base_mem p.pos.1 bound.1
    (scale damping (p.vel + force)).1 hW
  have hy := reflectAxis_base_mem p.pos.2 bound.2
    (scale damping (p.vel + force)).2 hH
  have hbX := base_step_bounds (reflectAxis p.pos.1 bound.1
    (scale damping (p.vel + force)).1).2
    (reflectAxis p.pos.1 bound.1 (scale damping (p.vel + force)).1).1
    bound.1 tau hx.1 hx.2 ht
  have hbY := base_step_bounds (reflectAxis p.pos.2 bound.2
    (scale damping (p.vel + force)).2).2
    (reflectAxis p.pos.2 bound.2 (scale damping (p.vel + force)).2).1
    bound.2 tau hy.1 hy.2 ht
  exact ⟨hbX.1, hbX.2, hbY.1, hbY.2⟩

/-- `compute_force` leaves the configuration untouched. -/
theorem computeForce_conf (acc : Acc) (dir : Vec → Vec) (w : World) :
    (w.computeForce acc dir).conf = w.conf := rfl

/-- `compute_force` leaves the cursor tensor untouched. -/
theorem computeForce_cursor (acc : Acc) (dir : Vec → Vec) (w : World) :
    (w.computeForce acc dir).cursorForceTensor = w.cursorForceTensor :=
  rfl

/-- The cultures after `World::step` are exactly the `apply_force_tensor`
update of the post-force-pass cultures. -/
theorem step_cultures_eq (acc : Acc) (dir : Vec → Vec) (mouse : Mouse)
    (tau : ℚ) (w : World) :
    (World.step acc dir mouse tau w).cultures =
      applyTensor w.conf.damping tau w.conf.bound
        (w.computeForce acc dir).cultures
        (w.computeForce acc dir).forceTensor
        (if (w.computeForce acc dir).conf.isInteractive then
          (w.computeForce acc dir).computeCursorTensor dir mouse
        else w.cursorForceTensor) := by
  cases h : w.conf.isInteractive <;>
    simp [World.step, World.applyForceTensor, computeForce_conf,
      computeForce_cursor, h]

/-- **C1 (amended).** After any `step`, every particle's position lies
within the world rectangle inflated by `|v| · τ` per axis, where `v` is
that particle's end-of-step velocity: the reflect-and-clamp phase places
the particle's base position inside `B = [0, W] × [0, H]`, and the
subsequent position update `pos += vel · τ` can move it out of `B` by at
most that much.  This holds for every accumulator, normalization
primitive and mouse state. -/
theorem step_positions_near_bound (acc : Acc) (dir : Vec → Vec)
    (mouse : Mouse) (tau : ℚ) (w : World) (hW : 0 ≤ w.conf.bound.1)
    (hH : 0 ≤ w.conf.bound.2) (ht : 0 ≤ tau) :
    ∀ cu ∈ (World.step acc dir mouse tau w).cultures,
      ∀ p ∈ cu.particles,
        -(|p.vel.1| * tau) ≤ p.pos.1 ∧
        p.pos.1 ≤ w.conf.bound.1 + |p.vel.1| * tau ∧
        -(|p.vel.2| * tau) ≤ p.pos.2 ∧
        p.pos.2 ≤ w.conf.bound.2 + |p.vel.2| * tau := by
  intro cu hcu p hp
  rw [step_cultures_eq] at hcu
  unfold applyTensor at hcu
  obtain ⟨a, b, ha, hb, rfl⟩ := exists_of_mem_zipWith _ _ _ cu hcu
  simp only [] at hp
  obtain ⟨p0, fp, hp0, hfp, rfl⟩ := exists_of_mem_zipWith _ _ _ p hp
  exact integrate_bounds w.conf.damping tau w.conf.bound p0
    (fp.1 + fp.2) hW hH ht

/-- Witness for C1's amended claim on a concrete one-particle world. -/
theorem step_positions_near_bound_witness :
    -(|(Particle.mk (500, 400) (0, 0)).vel.1| * 1) ≤
        (Particle.mk (500, 400) (0, 0)).pos.1 ∧
    (Particle.mk (500, 400) (0, 0)).pos.1 ≤
        (oneParticleWorld (500, 400) (0, 0)).conf.bound.1 +
          |(Particle.mk (500, 400) (0, 0)).vel.1| * 1 ∧
    -(|(Particle.mk (500, 400) (0, 0)).vel.2| * 1) ≤
        (Particle.mk (500, 400) (0, 0)).pos.2 ∧
    (Particle.mk (500, 400) (0, 0)).pos.2 ≤
        (oneParticleWorld (500, 400) (0, 0)).conf.bound.2 +
          |(Particle.mk (500, 400) (0, 0)).vel.2| * 1 := by
  have hstep : (World.step naiveAcc dirExact Mouse.noneDown 1
      (oneParticleWorld (500, 400) (0, 0))).cultures =
        [⟨[⟨(500, 400), (0, 0)⟩], [⟨(500, 400), 1⟩]⟩] := by
    norm_num [World.step, World.computeForce, World.applyForceTensor,
      applyTensor, World.computeCursorTensor, Culture.buildQt,
      Culture.force, naiveAcc, Particle.force, Particle.cursorForce,
      dist2, scale, integrate, reflectAxis, fillZero, addForces,
      divByCultures, oneParticleWorld, SimConfig.default, emptyCulture,
      defaultParticle, List.range_succ, List.range_zero, List.zipWith,
      List.foldl, List.zip, List.getD, Option.map, Option.getD,
      Culture.mk.injEq, Particle.mk.injEq, Prod.mk.injEq,
      WPoint.mk.injEq]
  exact step_positions_near_bound naiveAcc dirExact Mouse.noneDown 1
    (oneParticleWorld (500, 400) (0, 0)) (by decide) (by decide)
    (by decide) ⟨[⟨(500, 400), (0, 0)⟩], [⟨(500, 400), 1⟩]⟩
    (by rw [hstep]; exact List.mem_singleton.mpr rfl)
    ⟨(500, 400), (0, 0)⟩ (List.mem_singleton.mpr rfl)

/-- **C1 (counterexample).** A single interior particle with a large
velocity leaves the world rectangle in one step: the wall clamp runs
before the position update, and nothing re-checks the final position.
(The particle starts at `(500, 400)` with velocity `(4000, 0)`; its
force is zero — the only kernel evaluation is its self-interaction at
distance 0 — and after one step with `τ = 1` its position is
`(4500, 400)`, outside `[0, 1000] × [0, 800]`.) -/
theorem step_position_escapes_bound :
    ((((oneParticleWorld (500, 400) (4000, 0)).step naiveAcc dirExact
        Mouse.noneDown 1).cultures.getD 0 emptyCulture).particles.getD 0
        defaultParticle).pos = (4500, 400) ∧
    ¬ (((((oneParticleWorld (500, 400) (4000, 0)).step naiveAcc dirExact
        Mouse.noneDown 1).cultures.getD 0 emptyCulture).particles.getD 0
        defaultParticle).pos.1 ≤
      (oneParticleWorld (500, 400) (4000, 0)).conf.bound.1) := by
  constructor <;>
    norm_num [World.step, World.computeForce, World.applyForceTensor,
      applyTensor, World.computeCursorTensor, Culture.buildQt,
      Culture.force, naiveAcc, Particle.force, Particle.cursorForce,
      dist2, scale, integrate, reflectAxis, fillZero, addForces,
      divByCultures, oneParticleWorld, SimConfig.default, emptyCulture,
      defaultParticle, List.range_succ, List.range_zero, List.zipWith,
      List.foldl, List.zip, List.getD, Option.map, Option.getD]

/-! ## C4: wall reflection -/

/-- **C4 (counterexample).** A particle exactly at the left wall with a
large outward velocity does NOT remain inside the rectangle after one
step with `τ = 1 > 0`: the reflection flips its velocity to `(4000, 0)`
and the unchecked position update carries it to `(4000, 400)`, past the
right wall at `x = 1000` — refuting the claim's general boundary
statement. -/
theorem wall_clamp_escape :
    ((((oneParticleWorld (0, 400) (-4000, 0)).step naiveAcc dirExact
        Mouse.noneDown 1).cultures.getD 0 emptyCulture).particles.getD 0
        defaultParticle) = ⟨(4000, 400), (4000, 0)⟩ ∧
    ¬ (((((oneParticleWorld (0, 400) (-4000, 0)).step naiveAcc dirExact
        Mouse.noneDown 1).cultures.getD 0 emptyCulture).particles.getD 0
        defaultParticle).pos.1 ≤
      (oneParticleWorld (0, 400) (-4000, 0)).conf.bound.1) := by
  constructor <;>
    norm_num [World.step, World.computeForce, World.applyForceTensor,
      applyTensor, World.computeCursorTensor, Culture.buildQt,
      Culture.force, naiveAcc, Particle.force, Particle.cursorForce,
      dist2, scale, integrate, reflectAxis, fillZero, addForces,
      divByCultures, oneParticleWorld, SimConfig.default, emptyCulture,
      defaultParticle, List.range_succ, List.range_zero, List.zipWith,
      List.foldl, List.zip, List.getD, Option.map, Option.getD,
      Particle.mk.injEq, Prod.mk.injEq]

/-- **C4 (amended).** The concrete wall-clamp scenario holds: with
`C = 1`, `S = 1`, damping 1, a particle at `(0, 400)` with velocity
`(−100, 0)` ends one `τ = 1` step at `(100, 400)` with velocity
`(100, 0)`.  More generally, a particle exactly at the left wall with
outward velocity (and no force) has, after one step with `τ > 0` and
damping `> 0`, strictly inward velocity and remains inside `B` —
PROVIDED the reflected displacement `(−vx) · damping · τ` does not
exceed the world width `W` (without that bound the position update can
overshoot the opposite wall, as the counterexample shows). -/
theorem wall_clamp :
    (((((oneParticleWorld (0, 400) (-100, 0)).step naiveAcc dirExact
        Mouse.noneDown 1).cultures.getD 0 emptyCulture).particles.getD 0
        defaultParticle) = ⟨(100, 400), (100, 0)⟩) ∧
    (∀ damping tau W H y vx : ℚ, 0 < damping → 0 < tau → vx < 0 →
      0 ≤ y → y ≤ H → 0 ≤ W → -vx * damping * tau ≤ W →
      0 < (integrate damping tau (W, H) ⟨(0, y), (vx, 0)⟩ 0).vel.1 ∧
      0 ≤ (integrate damping tau (W, H) ⟨(0, y), (vx, 0)⟩ 0).pos.1 ∧
      (integrate damping tau (W, H) ⟨(0, y), (vx, 0)⟩ 0).pos.1 ≤ W ∧
      (integrate damping tau (W, H) ⟨(0, y), (vx, 0)⟩ 0).pos.2 = y) := by
  constructor
  · norm_num [World.step, World.computeForce, World.applyForceTensor,
      applyTensor, World.computeCursorTensor, Culture.buildQt,
      Culture.force, naiveAcc, Particle.force, Particle.cursorForce,
      dist2, scale, integrate, reflectAxis, fillZero, addForces,
      divByCultures, oneParticleWorld, SimConfig.default, emptyCulture,
      defaultParticle, List.range_succ, List.range_zero, List.zipWith,
      List.foldl, List.zip, List.getD, Option.map, Option.getD,
      Particle.mk.injEq, Prod.mk.injEq]
  · intro damping tau W H y vx hd ht hvx hy hyH hW hbound
    have hvneg : vx * damping < 0 := mul_neg_of_neg_of_pos hvx hd
    have habs : |vx * damping| = -(vx * damping) := abs_of_neg hvneg
    simp only [integrate, reflectAxis, scale, Prod.fst_add, Prod.snd_add,
      Prod.fst_zero, Prod.snd_zero, add_zero, zero_add, zero_mul,
      abs_zero, neg_zero, le_refl, if_pos, habs]
    refine ⟨neg_pos.mpr hvneg,
      le_of_lt (mul_pos (neg_pos.mpr hvneg) ht), ?_, ?_⟩
    · calc -(vx * damping) * tau = -vx * damping * tau := by ring
        _ ≤ W := hbound
    · by_cases hy0 : y ≤ 0
      · have h0 : y = 0 := le_antisymm hy0 hy
        simp [hy0, h0]
      · by_cases hyH0 : H ≤ y
        · have hEq : y = H := le_antisymm hyH hyH0
          subst hEq
          simp [hy0]
        · simp [hy0, hyH0]

/-- Witness for C4's amended general statement at `damping = 1`,
`τ = 1`, `W = 1000`, `H = 800`, `y = 400`, `vx = −100`. -/
theorem wall_clamp_witness :
    0 < (integrate 1 1 (1000, 800) ⟨(0, 400), (-100, 0)⟩ 0).vel.1 ∧
    0 ≤ (integrate 1 1 (1000, 800) ⟨(0, 400), (-100, 0)⟩ 0).pos.1 ∧
    (integrate 1 1 (1000, 800) ⟨(0, 400), (-100, 0)⟩ 0).pos.1 ≤ 1000 ∧
    (integrate 1 1 (1000, 800) ⟨(0, 400), (-100, 0)⟩ 0).pos.2 = 400 :=
  wall_clamp.2 1 1 1000 800 400 (-100) (by norm_num) (by norm_num)
    (by norm_num) (by norm_num) (by norm_num) (by norm_num)
    (by norm_num)

/-! ## C5: which tensor rows a step recomputes -/

theorem fillZero_eq_replicate (row : List Vec) :
    fillZero row = List.replicate row.length 0 := by
  induction row with
  | nil => rfl
  | cons x xs ih =>
      simp only [fillZero, List.map_cons, List.length_cons,
        List.replicate_succ] at ih ⊢
      rw [ih]

theorem getD_set_ne {α : Type} (l : List α) (i j : Nat) (a d : α)
    (h : j ≠ i) :
    (l.set i a).getD j d = l.getD j d := by
  simp [List.getD_eq_getElem?_getD, List.getElem?_set_ne (Ne.symm h)]

/-- The mq `World::step` hands the integrator exactly the tensor
`compute_force` produced this tick. -/
theorem step_forceTensor_eq (acc : Acc) (dir : Vec → Vec) (mouse : Mouse)
    (tau : ℚ) (w : World) :
    (World.step acc dir mouse tau w).forceTensor =
      (w.computeForce acc dir).forceTensor := by
  cases h : w.conf.isInteractive <;>
    simp [World.step, World.applyForceTensor, computeForce_conf, h]

/-- `compute_force`'s output depends only on the current cultures, mesh,
configuration and tensor row lengths — never on the previous tensor
values. -/
theorem computeForce_fresh (acc : Acc) (dir : Vec → Vec) (w w2 : World)
    (hcu : w.cultures = w2.cultures)
    (hg : w.gravityMesh = w2.gravityMesh) (hconf : w.conf = w2.conf)
    (hshape : ∀ c, (w.forceTensor.getD c []).length =
      (w2.forceTensor.getD c []).length) :
    (w.computeForce acc dir).forceTensor =
      (w2.computeForce acc dir).forceTensor := by
  unfold World.computeForce
  simp only [hcu, hg, hconf]
  apply List.map_congr_left
  intro c1 hc1
  congr 1
  rw [fillZero_eq_replicate, fillZero_eq_replicate, hshape c1]

/-- The legacy `src/src/sim.rs` `World::step` leaves every tensor row
other than the rolling slice `i mod C` at its previous value. -/
theorem legacyStep_stale_row (acc : Acc) (dir : Vec → Vec)
    (mouse : Mouse) (tau : ℚ) (w : LegacyWorld) (j : Nat)
    (hj : j ≠ w.i % w.cultures.length) :
    (LegacyWorld.step acc dir mouse tau w).forceTensor.getD j [] =
      w.forceTensor.getD j [] := by
  unfold LegacyWorld.step
  simp only [List.length_map]
  exact getD_set_ne _ _ _ _ _ hj

/-- **C5 (amended).** The mq `World::step` (the path behind the default
`gpu = false` configuration) does recompute the whole force tensor each
tick: the tensor the integrator uses equals `compute_force`'s output,
and that output is a function of the current cultures, mesh,
configuration and row shapes only.  The legacy `src/src/sim.rs`
`World::step`, however, has the rolling one-row-per-tick staleness
optimization unconditionally ENABLED: every row other than `i mod C`
keeps its value from an earlier tick. -/
theorem force_tensor_freshness :
    (∀ (acc : Acc) (dir : Vec → Vec) (mouse : Mouse) (tau : ℚ)
      (w : World),
      (World.step acc dir mouse tau w).forceTensor =
        (w.computeForce acc dir).forceTensor) ∧
    (∀ (acc : Acc) (dir : Vec → Vec) (w w2 : World),
      w.cultures = w2.cultures → w.gravityMesh = w2.gravityMesh →
      w.conf = w2.conf →
      (∀ c, (w.forceTensor.getD c []).length =
        (w2.forceTensor.getD c []).length) →
      (w.computeForce acc dir).forceTensor =
        (w2.computeForce acc dir).forceTensor) ∧
    (∀ (acc : Acc) (dir : Vec → Vec) (mouse : Mouse) (tau : ℚ)
      (w : LegacyWorld) (j : Nat), j ≠ w.i % w.cultures.length →
      (LegacyWorld.step acc dir mouse tau w).forceTensor.getD j [] =
        w.forceTensor.getD j []) :=
  ⟨step_forceTensor_eq, computeForce_fresh, legacyStep_stale_row⟩

/-- The legacy two-culture world of the C5 counterexample: one particle
per culture, at `(0, 0)` and `(3, 4)`, cross coefficients 1. -/
def staleWorld : LegacyWorld where
  conf := { bound := (1000, 800), numCultures := 2, cultureSize := 1, aoe2 := 10000, theta := 9 / 10, damping := 1 / 2, cursorAoe2 := 40000, cursorForce := 400 }
  cultures := [⟨[⟨(0, 0), 0⟩], []⟩, ⟨[⟨(3, 4), 0⟩], []⟩]
  gravityMesh := [[0, 1], [1, 0]]
  forceTensor := [[0], [0]]
  cursorForceTensor := [[0], [0]]
  i := 0

/-- The same simulation state as `staleWorld`, carried by the mq
`World`, for comparing against the full recomputation. -/
def staleWorldM : World where
  conf := { SimConfig.default with numCultures := 2, cultureSize := 1, isInteractive := false }
  cultures := [⟨[⟨(0, 0), 0⟩], []⟩, ⟨[⟨(3, 4), 0⟩], []⟩]
  gravityMesh := [[0, 1], [1, 0]]
  forceTensor := [[0], [0]]
  cursorForceTensor := [[0], [0]]
  i := 0

/-- **C5 (counterexample).** One legacy `step` (tick 0 computes only row
`0 mod 2 = 0`) hands the integrator force-tensor row 1 at its stale
pre-tick value `[(0, 0)]`, while recomputing row 1 from the current
positions yields `[(−3/10, −2/5)]`: `src/src/sim.rs::World::step` does
NOT recompute every row of the force tensor, refuting the claim for the
code it cites. -/
theorem legacy_step_stale_row_concrete :
    (LegacyWorld.step naiveAcc dirExact Mouse.noneDown 1
        staleWorld).forceTensor.getD 1 [] = [((0 : ℚ), (0 : ℚ))] ∧
    (staleWorldM.computeForce naiveAcc dirExact).forceTensor.getD 1 [] =
      [(-(3 : ℚ) / 10, -(2 : ℚ) / 5)] ∧
    ¬ (((0 : ℚ), (0 : ℚ)) = (-(3 : ℚ) / 10, -(2 : ℚ) / 5)) := by
  refine ⟨?_, ?_, by norm_num [Prod.ext_iff]⟩
  · norm_num [LegacyWorld.step, LegacyWorld.computeForceTensorSlice,
      applyTensor, Culture.buildQt, Culture.force, naiveAcc,
      Particle.force, Particle.cursorForce, dist2, scale, integrate,
      reflectAxis, fillZero, addForces, divByCultures, staleWorld,
      emptyCulture, List.range_succ, List.range_zero, List.zipWith,
      List.foldl, List.zip, List.getD, List.set, Option.map,
      Option.getD]
  · have h5 : Nat.sqrt 25 = 5 := by
      rw [show (25 : ℕ) = 5 * 5 from rfl]
      exact Nat.sqrt_eq 5
    have hdir : dirExact ((-3 : ℚ), (-4 : ℚ)) =
        (-(3 : ℚ) / 5, -(4 : ℚ) / 5) := by
      norm_num [dirExact, ratSqrt, show Int.toNat 25 = 25 from rfl, h5]
    norm_num [World.computeForce, Culture.buildQt, Culture.force,
      naiveAcc, Particle.force, dist2, scale, fillZero, addForces,
      divByCultures, staleWorldM, SimConfig.default, emptyCulture,
      List.range_succ, List.range_zero, List.foldl, List.getD, hdir,
      Prod.sub_def]

/-- Witness for C5's amended claim: the mq equality at a concrete world,
the recomputation independence at identical worlds, and the legacy
staleness at `staleWorld`'s row 1. -/
theorem force_tensor_freshness_witness :
    (World.step naiveAcc dirExact Mouse.noneDown 1
        (oneParticleWorld (1, 1) (0, 0))).forceTensor =
      ((oneParticleWorld (1, 1) (0, 0)).computeForce naiveAcc
        dirExact).forceTensor ∧
    ((oneParticleWorld (1, 1) (0, 0)).computeForce naiveAcc
        dirExact).forceTensor =
      ((oneParticleWorld (1, 1) (0, 0)).computeForce naiveAcc
        dirExact).forceTensor ∧
    (LegacyWorld.step naiveAcc dirExact Mouse.noneDown 1
        staleWorld).forceTensor.getD 1 [] =
      staleWorld.forceTensor.getD 1 [] :=
  ⟨force_tensor_freshness.1 naiveAcc dirExact Mouse.noneDown 1
      (oneParticleWorld (1, 1) (0, 0)),
   force_tensor_freshness.2.1 naiveAcc dirExact
      (oneParticleWorld (1, 1) (0, 0)) (oneParticleWorld (1, 1) (0, 0))
      rfl rfl rfl (fun _ => rfl),
   force_tensor_freshness.2.2 naiveAcc dirExact Mouse.noneDown 1
      staleWorld 1 (by decide)⟩

end ParticleLife
